import Mathlib

/-!
Verification development for the wrds2pg synchronization library.

Each Python function that a claim depends on is shallowly embedded as an
executable Lean definition; I/O-performing functions are embedded as pure
functions of their observable inputs (process exit codes, metadata rows,
persisted markers) returning their observable outputs (results, ordered
write operations, printed messages, final sink state).
-/

namespace Wrds2pg

/-! ## String helpers

Mirrors of Python's `str.lower`, `str.upper`, `str.strip`, and of
`re.search` used as a case-insensitive literal-substring test
(every regex in `code_row_dict` is a literal or an alternation of
literals, so substring search is an exact model). -/

/-- Python `str.lower` restricted to ASCII (all inputs here are ASCII). -/
def lowerStr (s : String) : String := ⟨s.data.map Char.toLower⟩

/-- Python `str.upper` restricted to ASCII. -/
def upperStr (s : String) : String := ⟨s.data.map Char.toUpper⟩

/-- Python `str.strip()`: drop leading and trailing whitespace (ASCII
whitespace suffices for the format and column names handled here). -/
def pyStrip (s : String) : String :=
  ⟨((s.data.dropWhile Char.isWhitespace).reverse.dropWhile
      Char.isWhitespace).reverse⟩

/-- Does `pat` occur at the head of `text`? -/
def matchesAt : List Char → List Char → Bool
  | [], _ => true
  | _ :: _, [] => false
  | c :: cs, d :: ds => c == d && matchesAt cs ds

/-- Does `pat` occur anywhere in `hay`?  Models `re.search` on a literal
pattern (and Python's `in` operator on strings). -/
def containsSub (hay pat : List Char) : Bool :=
  match hay with
  | [] => pat.isEmpty
  | _ :: t => matchesAt pat hay || containsSub t pat

/-- `pat` occurs somewhere in `s` (case-sensitive). -/
def strContains (s pat : String) : Bool := containsSub s.data pat.data

/-- `re.search(pat, s, re.I)` for a lowercase literal pattern `pat`. -/
def iContains (s pat : String) : Bool := strContains (lowerStr s) pat

/-! ## Column metadata and type inference (`sas/metadata.py`)

`code_row_dict` receives one CSV row of the PROC CONTENTS report.  The row
is modelled after the string fields have been through the source's own
normalizations `int(row.get("type") or 0)` and
`int(float(row.get("formatl") or 0))`: `type'` (storage class; 2 means
character), `format` (display format name, may be empty), `formatl`
(format width) and `formatd` (format decimals). -/

structure MetaRow where
  name : String
  type' : Int
  format : String
  formatl : Int
  formatd : Int
deriving Repr, DecidableEq

/-- Embedding of `code_row_dict` (src/wrds2pg/sas/metadata.py, lines
256-291; the copy in src/wrds2pg/wrds2pg.py lines 123-158 is identical).
The `Option`-valued inner match models the fall-through out of the
`if fmt:` block when none of the three date/time tests fire. -/
def code_row_dict (row : MetaRow) : String :=
  let fmt := pyStrip row.format
  if row.type' == 2 then "text"
  else
    let formatd := row.formatd
    let formatl := row.formatl
    let dateTimeHit : Option String :=
      if fmt != "" then
        if iContains fmt "datetime" then some "timestamp"
        else if upperStr fmt == "TIME8." || upperStr fmt == "TOD"
                || iContains fmt "time" then some "time"
        else if iContains fmt "date" || iContains fmt "yymmdd"
                || iContains fmt "mmddyy" then some "date"
        else none
      else none
    match dateTimeHit with
    | some t => t
    | none =>
      if upperStr fmt == "BEST" then "float8"
      else if formatd != 0 then "float8"
      else if formatd == 0 && formatl != 0 then "integer"
      else if formatd == 0 && formatl == 0 then "float8"
      else "text"

/-- The guard of the `i`-th branch of the inference chain, in the exact
precedence order of the source (and of spec section 4.3 step 3).
Branch 8 is the trailing `return "text"` fallback, whose guard is
vacuously true. -/
def rowBranchCond : Nat → MetaRow → Bool
  | 0, r => r.type' == 2
  | 1, r => let fmt := pyStrip r.format
            fmt != "" && iContains fmt "datetime"
  | 2, r => let fmt := pyStrip r.format
            fmt != "" && (upperStr fmt == "TIME8." || upperStr fmt == "TOD"
              || iContains fmt "time")
  | 3, r => let fmt := pyStrip r.format
            fmt != "" && (iContains fmt "date" || iContains fmt "yymmdd"
              || iContains fmt "mmddyy")
  | 4, r => upperStr (pyStrip r.format) == "BEST"
  | 5, r => r.formatd != 0
  | 6, r => r.formatd == 0 && r.formatl != 0
  | 7, r => r.formatd == 0 && r.formatl == 0
  | _, _ => true

/-- The logical type produced by the `i`-th branch. -/
def rowBranchType : Nat → String
  | 0 => "text"
  | 1 => "timestamp"
  | 2 => "time"
  | 3 => "date"
  | 4 => "float8"
  | 5 => "float8"
  | 6 => "integer"
  | 7 => "float8"
  | _ => "text"

/-- Index of the first branch whose guard holds (the branch the source's
if-chain reaches). -/
def firstBranch (r : MetaRow) : Nat :=
  if rowBranchCond 0 r then 0
  else if rowBranchCond 1 r then 1
  else if rowBranchCond 2 r then 2
  else if rowBranchCond 3 r then 3
  else if rowBranchCond 4 r then 4
  else if rowBranchCond 5 r then 5
  else if rowBranchCond 6 r then 6
  else if rowBranchCond 7 r then 7
  else 8

lemma code_row_dict_eq_firstBranch (r : MetaRow) :
    code_row_dict r = rowBranchType (firstBranch r) := by
  unfold code_row_dict firstBranch rowBranchCond rowBranchType
  by_cases h0 : (r.type' == 2) = true
  · simp [h0]
  · simp only [Bool.not_eq_true] at h0
    by_cases hf : ((pyStrip r.format) != "") = true
    · simp only [h0, hf]
      by_cases h1 : iContains (pyStrip r.format) "datetime" = true
      · simp [h1, hf]
      · simp only [Bool.not_eq_true] at h1
        by_cases h2 : (upperStr (pyStrip r.format) == "TIME8."
            || upperStr (pyStrip r.format) == "TOD"
            || iContains (pyStrip r.format) "time") = true
        · simp [h1, h2, hf]
        · simp only [Bool.not_eq_true] at h2
          by_cases h3 : (iContains (pyStrip r.format) "date"
              || iContains (pyStrip r.format) "yymmdd"
              || iContains (pyStrip r.format) "mmddyy") = true
          · simp [h1, h2, h3, hf]
          · simp only [Bool.not_eq_true] at h3
            simp [h1, h2, h3, hf]
            split_ifs <;> rfl
    · simp only [Bool.not_eq_true] at hf
      simp [h0, hf]
      split_ifs <;> rfl

lemma firstBranch_le (r : MetaRow) : firstBranch r ≤ 8 := by
  unfold firstBranch
  split_ifs <;> omega

lemma firstBranch_cond (r : MetaRow) :
    rowBranchCond (firstBranch r) r = true := by
  unfold firstBranch
  split_ifs with h0 h1 h2 h3 h4 h5 h6 h7 <;>
    first
      | assumption
      | simp [rowBranchCond]

lemma firstBranch_least (r : MetaRow) :
    ∀ j < firstBranch r, rowBranchCond j r = false := by
  unfold firstBranch
  split_ifs with h0 h1 h2 h3 h4 h5 h6 h7 <;>
    intro j hj <;>
    interval_cases j <;>
    simp_all

/-- C1: `code_row_dict` is a pure deterministic function whose branches are
evaluated in the exact precedence order of spec section 4.3 step 3
(character storage, datetime format, time format/pattern/alias, date
pattern, best-fit numeric, nonzero decimals, zero decimals with nonzero
width, zero decimals and zero width, text fallback), and every metadata
row reaches exactly one branch: the result is the type of the unique
first branch whose guard holds.  (The source spells the floating-point
type `float8`.) -/
theorem code_row_dict_precedence_total (r : MetaRow) :
    code_row_dict r = rowBranchType (firstBranch r) ∧
    ∃! i : Nat, i ≤ 8 ∧ rowBranchCond i r = true ∧
      ∀ j < i, rowBranchCond j r = false := by
  refine ⟨code_row_dict_eq_firstBranch r, firstBranch r,
    ⟨firstBranch_le r, firstBranch_cond r, firstBranch_least r⟩, ?_⟩
  rintro i ⟨hle, hcond, hleast⟩
  rcases Nat.lt_trichotomy i (firstBranch r) with hlt | heq | hgt
  · have := firstBranch_least r i hlt
    rw [this] at hcond
    exact absurd hcond (by simp)
  · exact heq
  · have := hleast (firstBranch r) hgt
    rw [firstBranch_cond r] at this
    exact absurd this (by simp)

/-! ## Python dict model

`get_table_metadata` builds `inferred` as a Python dict and then assigns
overrides into it.  A dict with string keys is modelled as an association
list with unique keys: assignment replaces the value of the first
occurrence in place (preserving insertion order, as Python does) or
appends a fresh key at the end. -/

/-- Python `d[k] = v`. -/
def dinsert : List (String × String) → String → String → List (String × String)
  | [], k, v => [(k, v)]
  | p :: t, k, v => if p.1 = k then (k, v) :: t else p :: dinsert t k v

/-- Python `d.get(k)`. -/
def dlookup : List (String × String) → String → Option String
  | [], _ => none
  | p :: t, k => if p.1 = k then some p.2 else dlookup t k

lemma dlookup_dinsert (m : List (String × String)) (k v n : String) :
    dlookup (dinsert m k v) n = if n = k then some v else dlookup m n := by
  induction m with
  | nil =>
    by_cases h : n = k
    · subst h; simp [dinsert, dlookup]
    · have h' : ¬k = n := fun e => h e.symm
      simp [dinsert, dlookup, h, h']
  | cons p t ih =>
    by_cases hp : p.1 = k
    · by_cases h : n = k
      · subst h; simp [dinsert, dlookup, hp]
      · have h' : ¬k = n := fun e => h e.symm
        have hpn : ¬p.1 = n := hp ▸ h'
        simp [dinsert, dlookup, hp, h, h', hpn]
    · by_cases h : n = k
      · subst h
        simp [dinsert, dlookup, hp, ih]
      · simp [dinsert, dlookup, hp, h, ih]

/-! ## Metadata / type-inference engine (`sas/metadata.py`, `get_table_metadata`)

`get_table_metadata` (lines 201-254) runs the metadata script, parses the
CSV report, and post-processes the parsed rows.  The I/O part is lifted
out: the model takes the parsed metadata rows (in the order of the remote
report) and the user's `col_types` override list, and performs the same
pure post-processing: lowercased ordered name list, per-row inferred
types, then overrides assigned by lowercased key.  The
`RuntimeError` raised on an empty report is modelled as `none`. -/

/-- `r["name"].strip().lower()`. -/
def stripLower (s : String) : String := lowerStr (pyStrip s)

/-- `names = [r["name"].strip().lower() for r in rows]`. -/
def metaNames (rows : List MetaRow) : List String :=
  rows.map (fun r => stripLower r.name)

/-- `inferred = {n: code_row_dict(r) for n, r in zip(names, rows)}`. -/
def inferTypes (rows : List MetaRow) : List (String × String) :=
  ((metaNames rows).zip (rows.map code_row_dict)).foldl
    (fun m p => dinsert m p.1 p.2) []

/-- `for k, v in col_types.items(): inferred[k.lower()] = v`. -/
def applyColTypes (inferred colTypes : List (String × String)) :
    List (String × String) :=
  colTypes.foldl (fun m p => dinsert m (lowerStr p.1) p.2) inferred

/-- Embedding of the pure part of `get_table_metadata`
(src/wrds2pg/sas/metadata.py lines 236-254; `get_table_sql` in
src/wrds2pg/wrds2pg.py lines 280-307 computes `names`/`col_types` the
same way). -/
def get_table_metadata_model (rows : List MetaRow)
    (colTypes : List (String × String)) :
    Option (List String × List (String × String)) :=
  if rows.isEmpty then none
  else some (metaNames rows, applyColTypes (inferTypes rows) colTypes)

lemma dlookup_applyColTypes_not_mem (inferred colTypes : List (String × String))
    (n : String) (h : n ∉ colTypes.map (fun p => lowerStr p.1)) :
    dlookup (applyColTypes inferred colTypes) n = dlookup inferred n := by
  induction colTypes generalizing inferred with
  | nil => rfl
  | cons p t ih =>
    simp only [List.map_cons, List.mem_cons, not_or] at h
    simp only [applyColTypes, List.foldl_cons]
    rw [show (t.foldl (fun m q => dinsert m (lowerStr q.1) q.2)
          (dinsert inferred (lowerStr p.1) p.2))
        = applyColTypes (dinsert inferred (lowerStr p.1) p.2) t from rfl,
      ih _ h.2, dlookup_dinsert]
    simp [h.1]

/-- C3: the ordered column-name list returned by `get_table_metadata` is
exactly the lowercased names of the remote metadata rows in report order;
`col_types` overrides never change the name list, and they change only
the overridden entries of the name-to-type map (any name whose lowercased
form is not an override key maps to the same type with or without
overrides). -/
theorem get_table_metadata_order_preserved (rows : List MetaRow)
    (colTypes : List (String × String)) (n : String)
    (hrows : rows ≠ [])
    (hn : n ∉ colTypes.map (fun p => lowerStr p.1)) :
    (get_table_metadata_model rows colTypes).map Prod.fst
      = some (rows.map (fun r => stripLower r.name)) ∧
    (get_table_metadata_model rows colTypes).map Prod.fst
      = (get_table_metadata_model rows []).map Prod.fst ∧
    (get_table_metadata_model rows colTypes).bind (fun x => dlookup x.2 n)
      = (get_table_metadata_model rows []).bind (fun x => dlookup x.2 n) := by
  have hne : rows.isEmpty = false := by
    cases rows with
    | nil => exact absurd rfl hrows
    | cons r t => rfl
  refine ⟨?_, ?_, ?_⟩
  · simp [get_table_metadata_model, hne, metaNames]
  · simp [get_table_metadata_model, hne]
  · simp only [get_table_metadata_model, hne, Bool.false_eq_true, if_false,
      Option.some_bind]
    rw [dlookup_applyColTypes_not_mem (inferTypes rows) colTypes n hn]
    rfl

/-- Witness for C3 at a concrete one-column report with an override for a
column that is not the probed name. -/
theorem get_table_metadata_order_preserved_witness :
    (get_table_metadata_model [⟨"ID", 1, "8.", 8, 0⟩]
        [("PERMCO", "integer")]).map Prod.fst = some ["id"] := by
  have h := get_table_metadata_order_preserved [⟨"ID", 1, "8.", 8, 0⟩]
    [("PERMCO", "integer")] "permno" (by decide) (by decide)
  rw [h.1]
  rfl

/-! ## Orchestration (`api.py`: `wrds_update`, `wrds_update_csv`)

The sync entry points are embedded as pure functions of their observable
inputs and outputs.  Inputs: the remote marker as returned by
`get_modified_str` (`none` models Python `None`), the `force` /
`create_roles` flags, and the sink's persisted state (the table comment
read by `get_table_comment`, which is `""` when the table or comment is
absent, plus the existing role set; for the CSV sink, the file with the
marker its mtime decodes to, or `none` when the file does not exist).
Outputs: the returned boolean, the ordered list of write operations
issued against the sink, the progress messages printed, and the sink
state after the call. -/

/-- A write operation of the database sink.  `loadTable` stands for the
whole `wrds_to_pg` drop/recreate/bulk-load routine. -/
inductive PgWrite
  | loadTable
  | setComment (comment : String)
  | createRole (role : String)
  | alterOwner (schema table : String)
  | grantSelect (schema table : String)
deriving Repr, DecidableEq

/-- Persisted database-sink state visible to `wrds_update`. -/
structure PgState where
  comment : String
  roles : List String
deriving Repr, DecidableEq

/-- Observable outcome of one `wrds_update` call. -/
structure PgSyncOut where
  result : Bool
  writes : List PgWrite
  msgs : List String
  state : PgState
deriving Repr, DecidableEq

/-- Embedding of the marker-comparison and write sequence of `wrds_update`
(src/wrds2pg/api.py lines 174-236).  Note the source's `if not modified:`
guard is falsy-based: it catches both `None` and the empty string, so the
later `elif modified == "" and not force:` branch (the "WRDS flaked out!"
message) is syntactically present but comes after the falsy guard. -/
def wrds_update_model (table_name schema alt_table_name : String)
    (modified : Option String) (force create_roles : Bool)
    (st : PgState) : PgSyncOut :=
  let comment := st.comment
  match modified with
  | none => ⟨false, [], [], st⟩
  | some m =>
    if m = "" then ⟨false, [], [], st⟩
    else if m = comment && !force then
      ⟨false, [], [schema ++ "." ++ alt_table_name ++ " already up to date."], st⟩
    else if m = "" && !force then
      ⟨false, [], ["WRDS flaked out!"], st⟩
    else
      let msgs := if force then ["Forcing update based on user request."]
        else ["Updated " ++ schema ++ "." ++ table_name ++ " is available.",
              "Getting from WRDS."]
      let w1 : List PgWrite := [.loadTable, .setComment m]
      let (w2, roles2) :=
        if create_roles then
          let (wa, ra) :=
            if st.roles.contains schema then ([], st.roles)
            else ([PgWrite.createRole schema], st.roles ++ [schema])
          let (wc, rc) :=
            if ra.contains (schema ++ "_access") then ([], ra)
            else ([PgWrite.createRole (schema ++ "_access")],
                  ra ++ [schema ++ "_access"])
          (wa ++ [PgWrite.alterOwner schema alt_table_name] ++ wc
             ++ [PgWrite.grantSelect schema alt_table_name], rc)
        else ([], st.roles)
      ⟨true, w1 ++ w2, msgs, ⟨m, roles2⟩⟩

/-- A write operation of the delimited-file sink.  `export` is the
`wrds_to_csv` streaming download of the named remote table. -/
inductive CsvWrite
  | export (table : String)
  | setMarker (marker : String)
deriving Repr, DecidableEq

/-- Observable outcome of one `wrds_update_csv` call.  `file` is the sink
file: `none` when absent, `some mk` when present with persisted marker
`mk` (what `get_modified_csv` returns for it; after a fetch the new
mtime decodes back to the written marker exactly when the marker
round-trips through the mtime encoding, which is analysed separately by
the marker round-trip theorem). -/
structure CsvSyncOut where
  result : Bool
  writes : List CsvWrite
  msgs : List String
  file : Option String
deriving Repr, DecidableEq

/-- Embedding of the marker comparison and write sequence of
`wrds_update_csv` (src/wrds2pg/api.py lines 520-584; the claim's cited
skip check is lines 551-555).  The unconditional `schema_dir.mkdir` is a
directory-creation side effect outside the sink writes enumerated here
(it is the subject of the path-resolver claim). -/
def wrds_update_csv_model (table_name schema alt_table_name : String)
    (modified : Option String) (force : Bool)
    (file : Option String) : CsvSyncOut :=
  match modified with
  | none => ⟨false, [], [], file⟩
  | some m =>
    let csv_modified := match file with | some mk => mk | none => ""
    if m = csv_modified && !force then
      ⟨false, [], [schema ++ "." ++ alt_table_name ++ " already up to date.\n"],
        file⟩
    else
      let msgs := if force then ["Forcing update based on user request."]
        else ["Updated " ++ schema ++ "." ++ alt_table_name ++ " is available.",
              "Getting from WRDS."]
      ⟨true, [.export table_name, .setMarker m], msgs, some m⟩

/-- C2: when the remote marker equals the sink's persisted marker and
`force` is off, both sync entry points return `False` and issue no write
operation, leaving the sink state untouched; and for the database sink a
second call right after any first call with the same remote marker is
always such a no-op (the first call either skipped, or persisted exactly
that marker as the comment). -/
theorem sync_up_to_date_no_writes (table_name schema alt m : String)
    (cr f : Bool) (st : PgState) (file : Option String)
    (hpg : st.comment = m)
    (hcsv : (match file with | some mk => mk | none => "") = m) :
    (wrds_update_model table_name schema alt (some m) false cr st
      = ⟨false, [], (wrds_update_model table_name schema alt (some m) false cr
          st).msgs, st⟩) ∧
    (wrds_update_csv_model table_name schema alt (some m) false file
      = ⟨false, [], (wrds_update_csv_model table_name schema alt (some m) false
          file).msgs, file⟩) ∧
    ((wrds_update_model table_name schema alt (some m) false cr
        ((wrds_update_model table_name schema alt (some m) f cr st).state)).result
        = false ∧
     (wrds_update_model table_name schema alt (some m) false cr
        ((wrds_update_model table_name schema alt (some m) f cr st).state)).writes
        = []) := by
  refine ⟨?_, ?_, ?_⟩
  · by_cases hm : m = "" <;> simp [wrds_update_model, hpg, hm]
  · by_cases hm : m = "" <;> simp [wrds_update_csv_model, hcsv, hm]
  · by_cases hm : m = ""
    · simp [wrds_update_model, hm]
    · by_cases hforce : f = true
      · simp [wrds_update_model, hm, hforce]
      · simp only [Bool.not_eq_true] at hforce
        simp [wrds_update_model, hm, hforce, hpg]

/-- Witness for C2: an up-to-date sink (comment and csv marker both equal
to the remote marker) with `force=False` is a no-op on both sinks. -/
theorem sync_up_to_date_no_writes_witness :
    (wrds_update_model "dsi" "crsp" "dsi"
        (some "Last modified: 01/02/2024 03:04:05") false true
        ⟨"Last modified: 01/02/2024 03:04:05", ["crsp"]⟩).writes = [] := by
  have h := sync_up_to_date_no_writes "dsi" "crsp" "dsi"
    "Last modified: 01/02/2024 03:04:05" true false
    ⟨"Last modified: 01/02/2024 03:04:05", ["crsp"]⟩
    (some "Last modified: 01/02/2024 03:04:05") rfl rfl
  rw [h.1]

/-- C7 counterexample: with an empty-string remote marker (and a
non-matching persisted comment) `wrds_update` aborts through the falsy
`if not modified:` guard — its observable outcome is identical to the
`None` (dataset-not-found) abort and no message is printed; the dedicated
`modified == ""` branch (which would print "WRDS flaked out!") is not the
path taken, contradicting the claimed distinct code path. -/
theorem wrds_update_empty_marker_counterexample :
    wrds_update_model "t" "s" "t" (some "") false true ⟨"prev", []⟩
      = wrds_update_model "t" "s" "t" none false true ⟨"prev", []⟩ ∧
    (wrds_update_model "t" "s" "t" (some "") false true ⟨"prev", []⟩).msgs
      = [] := by
  constructor <;> rfl

/-- C7 amended: an empty-string remote marker does abort the sync with
`False` and no sink writes and without overwriting the persisted marker,
but through the same falsy guard as the `None` abort — observably
indistinguishable from the dataset-not-found case — rather than through
a distinct code path (the dedicated empty-string branch is unreachable). -/
theorem wrds_update_empty_marker_same_as_none
    (table_name schema alt : String) (force cr : Bool) (st : PgState) :
    wrds_update_model table_name schema alt (some "") force cr st
      = wrds_update_model table_name schema alt none force cr st ∧
    wrds_update_model table_name schema alt (some "") force cr st
      = ⟨false, [], [], st⟩ := by
  constructor <;> rfl

/-! ## Process/stream adapter (`sas/stream.py`, `get_process_stream`)

The adapter's error surface is embedded as a pure function of the mode
selectors (`wrds_id`, `fpath`) and of the transport's observable
behaviour (local subprocess return code and stderr; remote exit status).
In the remote branch (line 83) the source raises
`RuntimeError(f"Remote SAS exited with code {exit_status}.\n{err}")`,
but the name `err` is bound nowhere in that function, so evaluating the
f-string raises `NameError: name 'err' is not defined` before any
`RuntimeError` is constructed — modelled by `.nameError "err"`. -/

inductive StreamOutcome
  | ok
  | valueError (msg : String)
  | runtimeError (msg : String)
  | nameError (missing : String)
deriving Repr, DecidableEq

/-- Embedding of the mode selection and error paths of
`get_process_stream` (src/wrds2pg/sas/stream.py lines 13-91). -/
def get_process_stream_model (wrds_id fpath : Option String)
    (localRc : Int) (localStderr : String) (remoteStatus : Int) :
    StreamOutcome :=
  match fpath with
  | some _ =>
    if localRc != 0 then
      .runtimeError ("SAS exited with code " ++ toString localRc ++ ".\n"
        ++ localStderr)
    else .ok
  | none =>
    match wrds_id with
    | some _ => if remoteStatus > 4 then .nameError "err" else .ok
    | none => .valueError "Either `wrds_id` or `fpath` must be provided."

/-- C6 evidence (code bug in the third leg of the claim): the adapter does
fail with `ValueError` when neither credential nor path is supplied, and
with `RuntimeError` carrying captured stderr when the local subprocess
exits non-zero; and in remote mode it fails exactly when the exit status
exceeds the tolerance 4 — but that failure is a `NameError` from the
undefined variable `err` at stream.py line 83, not the intended
remote-execution `RuntimeError`. -/
theorem get_process_stream_error_surface :
    get_process_stream_model none none 0 "" 0
      = .valueError "Either `wrds_id` or `fpath` must be provided." ∧
    get_process_stream_model none (some "/tmp/lib") 3 "ERROR: boom" 0
      = .runtimeError "SAS exited with code 3.\nERROR: boom" ∧
    get_process_stream_model (some "user") none 0 "" 5 = .nameError "err" ∧
    get_process_stream_model (some "user") none 0 "" 4 = .ok := by
  refine ⟨rfl, by decide, rfl, rfl⟩

/-! ## Columnar sink (`files/parquet.py`)

An Arrow schema is modelled by its column names plus its key/value
metadata; Python `bytes` keys/values (`b"last_modified"`,
`modified.encode("utf-8")` / `.decode("utf-8")`) are represented by the
strings they encode, since UTF-8 encode/decode is a bijection on valid
strings. -/

structure ArrowSchema where
  colNames : List String
  metadata : List (String × String)
deriving Repr, DecidableEq

structure RecordBatch where
  schema : ArrowSchema
  rowCount : Nat
deriving Repr, DecidableEq

/-- A written parquet file: the file-level schema fixed at writer-open
time, plus the written batches. -/
structure PqFileModel where
  schema : ArrowSchema
  groups : List RecordBatch
deriving Repr, DecidableEq

/-- `schema.with_metadata({...})`: replaces the schema's key/value
metadata wholesale, keeping the columns. -/
def with_metadata (s : ArrowSchema) (md : List (String × String)) :
    ArrowSchema :=
  ⟨s.colNames, md⟩

/-- The batch loop of `csv_to_pq_arrow_stream`
(src/wrds2pg/files/parquet.py lines 88-99): the writer is created lazily
on the first batch, with the marker attached to that batch's schema
before the batch is written; later batches are appended against the
fixed schema. -/
def writeBatches (modified : String) :
    Option PqFileModel → List RecordBatch → Option PqFileModel
  | w, [] => w
  | none, b :: bs =>
    let schema := with_metadata b.schema [("last_modified", modified)]
    writeBatches modified (some ⟨schema, [b]⟩) bs
  | some f, b :: bs =>
    writeBatches modified (some ⟨f.schema, f.groups ++ [b]⟩) bs

/-- Embedding of `csv_to_pq_arrow_stream` (lines 61-99) applied to the
record batches the CSV reader produces: `none` when no batch arrived (no
writer is ever opened, no file written). -/
def csv_to_pq_arrow_stream_model (batches : List RecordBatch)
    (modified : String) : Option PqFileModel :=
  writeBatches modified none batches

/-- Embedding of `get_modified_pq` (lines 28-40): `""` when the file does
not exist, when the schema carries no metadata, and when the
`last_modified` key is absent. -/
def get_modified_pq_model (file : Option PqFileModel) : String :=
  match file with
  | none => ""
  | some f =>
    match dlookup f.schema.metadata "last_modified" with
    | none => ""
    | some v => v

lemma writeBatches_some (modified : String) (bs : List RecordBatch)
    (f : PqFileModel) :
    ∃ gs, writeBatches modified (some f) bs = some ⟨f.schema, gs⟩ := by
  induction bs generalizing f with
  | nil => exact ⟨f.groups, rfl⟩
  | cons b t ih => exact ih ⟨f.schema, f.groups ++ [b]⟩

/-- C8: a columnar sync that writes at least one batch fixes the file
schema to the first batch's schema with the marker attached under the
`last_modified` key before any batch is written, and reading the written
file's metadata returns exactly the marker string. -/
theorem pq_marker_attached_and_read_back (b : RecordBatch)
    (bs : List RecordBatch) (modified : String) :
    (csv_to_pq_arrow_stream_model (b :: bs) modified).map PqFileModel.schema
      = some (with_metadata b.schema [("last_modified", modified)]) ∧
    get_modified_pq_model (csv_to_pq_arrow_stream_model (b :: bs) modified)
      = modified := by
  obtain ⟨gs, hgs⟩ := writeBatches_some modified bs
    ⟨with_metadata b.schema [("last_modified", modified)], [b]⟩
  have hrun : csv_to_pq_arrow_stream_model (b :: bs) modified
      = some ⟨with_metadata b.schema [("last_modified", modified)], gs⟩ := by
    simpa [csv_to_pq_arrow_stream_model, writeBatches] using hgs
  rw [hrun]
  exact ⟨rfl, by simp [get_modified_pq_model, with_metadata, dlookup]⟩

/-! ## Parquet path resolver (`files/paths.py`, `get_pq_file`)

The filesystem is a set of existing directories plus the files with
their contents; paths are segment lists (`data_dir` is taken
post-`expanduser`, which only rewrites a leading `~`).  `mkdir(parents,
exist_ok)` creates every missing ancestor of the target directory and
touches nothing else. -/

structure FileSys where
  dirs : List (List String)
  files : List (List String × String)
deriving Repr, DecidableEq

/-- The nonempty prefixes of a segment path: the directories
`Path.mkdir(parents=True)` guarantees to exist afterwards. -/
def ancestors (p : List String) : List (List String) :=
  (List.range p.length).map (fun i => p.take (i + 1))

/-- `p.mkdir(parents=True, exist_ok=True)`. -/
def mkdir_parents (fs : FileSys) (p : List String) : FileSys :=
  ⟨fs.dirs ++ (ancestors p).filter (fun d => decide (d ∉ fs.dirs)), fs.files⟩

/-- `pathlib`'s `with_suffix` stem: strip the final extension of a name,
where a name with no dot, with only a leading dot, or ending in a dot has
no extension. -/
def stemOf (name : List Char) : List Char :=
  let rev := name.reverse
  let afterDot := rev.takeWhile (fun c => c != '.')
  if afterDot.length == rev.length then name
  else if afterDot.length == 0 then name
  else
    let stem := (rev.drop (afterDot.length + 1)).reverse
    if stem.isEmpty then name else stem

/-- `(schema_dir / table_name).with_suffix(".parquet")`, final component. -/
def with_suffix_parquet (table : String) : String :=
  ⟨stemOf table.data⟩ ++ ".parquet"

/-- Embedding of `get_pq_file` (src/wrds2pg/files/paths.py lines 6-17;
the copy in src/wrds2pg/wrds2pg.py lines 1053-1064 is identical),
after the `data_dir` argument/environment resolution has succeeded. -/
def get_pq_file_model (data_dir : List String) (schema table : String)
    (fs : FileSys) : FileSys × List String :=
  let schema_dir := data_dir ++ [schema]
  let fs' := mkdir_parents fs schema_dir
  (fs', schema_dir ++ [with_suffix_parquet table])

/-- C10: every `get_pq_file` call ensures the schema directory (and its
missing ancestors) exists; its only filesystem effect is adding exactly
the missing ancestors of the schema directory — files are untouched —
and when the directories already exist the call changes nothing. -/
theorem get_pq_file_creates_schema_dir (data_dir : List String)
    (schema table : String) (fs : FileSys) :
    (data_dir ++ [schema]) ∈ (get_pq_file_model data_dir schema table fs).1.dirs ∧
    (get_pq_file_model data_dir schema table fs).1.files = fs.files ∧
    (get_pq_file_model data_dir schema table fs).1.dirs
      = fs.dirs ++ (ancestors (data_dir ++ [schema])).filter
          (fun d => decide (d ∉ fs.dirs)) ∧
    ((∀ d ∈ ancestors (data_dir ++ [schema]), d ∈ fs.dirs) →
      (get_pq_file_model data_dir schema table fs).1 = fs) := by
  have hmem : (data_dir ++ [schema]) ∈ ancestors (data_dir ++ [schema]) := by
    have hlen : 0 < (data_dir ++ [schema]).length := by simp
    refine List.mem_map.mpr ⟨(data_dir ++ [schema]).length - 1, ?_, ?_⟩
    · exact List.mem_range.mpr (by omega)
    · rw [Nat.sub_add_cancel hlen]
      exact List.take_length _
  refine ⟨?_, rfl, rfl, ?_⟩
  · by_cases h : (data_dir ++ [schema]) ∈ fs.dirs
    · exact List.mem_append_left _ h
    · refine List.mem_append_right _ ?_
      exact List.mem_filter.mpr ⟨hmem, by simpa using h⟩
  · intro hall
    cases fs with
    | mk ds fls =>
      have hnil : (ancestors (data_dir ++ [schema])).filter
          (fun d => decide (d ∉ ds)) = [] := by
        refine List.filter_eq_nil_iff.mpr ?_
        intro d hd
        simpa using hall d hd
      simp only [get_pq_file_model, mkdir_parents, hnil, List.append_nil]

/-- Witness for C10's idempotence leg: when the data and schema
directories already exist the call leaves the filesystem unchanged. -/
theorem get_pq_file_creates_schema_dir_witness :
    (get_pq_file_model ["data"] "crsp" "dsf"
        ⟨[["data"], ["data", "crsp"]], []⟩).1
      = ⟨[["data"], ["data", "crsp"]], []⟩ := by
  exact (get_pq_file_creates_schema_dir ["data"] "crsp" "dsf"
    ⟨[["data"], ["data", "crsp"]], []⟩).2.2.2 (by decide)

/-! ## Export code generator (`sas/codegen.py`, `get_wrds_sas`)

`get_wrds_sas` first calls `get_table_sql`, whose pure post-processing of
the metadata rows is the same `names`/`col_types` computation as
`get_table_metadata` above; the model therefore takes the parsed metadata
rows in place of that I/O.  Every string below reproduces the source's
literals byte for byte (including trailing spaces inside the f-string
templates).  `none` models the `RuntimeError` that `get_table_sql` raises
on an empty metadata report. -/

/-- Python truthiness of an optional string (`None` and `""` are falsy). -/
def pyTruthy : Option String → Bool
  | none => false
  | some s => s != ""

/-- Python truthiness of an optional integer (`None` and `0` are falsy). -/
def pyTruthyNat : Option Nat → Bool
  | none => false
  | some n => n != 0

def optStr (o : Option String) : String := o.getD ""

/-- Python `"\n".join(...)` / `" ".join(...)`. -/
def joinSep (sep : String) : List String → String
  | [] => ""
  | [x] => x
  | x :: xs => x ++ sep ++ joinSep sep xs

/-- Arguments of `get_wrds_sas` (src/wrds2pg/sas/codegen.py lines 5-9);
`col_types` is the caller's override dict forwarded to `get_table_sql`,
`whereCl` is the `where` argument. -/
structure WrdsSasArgs where
  table_name : String
  schema : String
  fpath : Option String
  drop : Option String
  keep : Option String
  fix_cr : Bool
  col_types : List (String × String)
  fix_missing : Bool
  obs : Option Nat
  whereCl : Option String
  rename : Option String
  sas_encoding : Option String
deriving Repr, DecidableEq

/-- The `fix_cr_code` block (codegen.py lines 20-26). -/
def fix_cr_block : String :=
  "\n            * fix_cr_code;  \n            array _char _character_;\n            \n            do over _char;\n                _char = compress(_char, , \x27kw\x27);\n            end;"

/-- The `fix_missing_str` block (codegen.py lines 118-124). -/
def fix_missing_block : String :=
  "\n                * fix_missing code;\n                array allvars _numeric_ ;\n\n                do over allvars;\n                  if missing(allvars) then allvars = .;\n                end;"

/-- `libname_stmt` (codegen.py lines 30-33). -/
def libnameStmt (a : WrdsSasArgs) : String :=
  if pyTruthy a.fpath then
    "libname " ++ a.schema ++ " \x27" ++ optStr a.fpath ++ "\x27;"
  else ""

/-- `rename_str` (codegen.py lines 35-38). -/
def renameStr (a : WrdsSasArgs) : String :=
  if pyTruthy a.rename then " rename=(" ++ optStr a.rename ++ ")" else ""

/-- `sas_encoding_str` (codegen.py lines 40-43). -/
def sasEncodingStr (a : WrdsSasArgs) : String :=
  if !pyTruthy a.sas_encoding then ""
  else "(encoding=\x27" ++ optStr a.sas_encoding ++ "\x27)"

/-- The interpolation slots of the transform-path f-string
(codegen.py lines 128-150). -/
structure TransformPieces where
  libname_stmt : String
  new_table : String
  schema : String
  sas_table : String
  sas_encoding_str : String
  bigints_str : String
  fix_cr_code : String
  fix_missing_str : String
  where_str : String
  unformat_str : String
  dates_str : String
  times_str : String
  timestamps_str : String
deriving Repr, DecidableEq

/-- The transform-path template up to (excluding) the `fix_missing_str`
slot. -/
def transformBefore (p : TransformPieces) : String :=
  "\n            options nosource nonotes;\n            " ++ p.libname_stmt
    ++ "\n            * Fix missing values;\n            data " ++ p.new_table
    ++ ";\n                set " ++ p.schema ++ "." ++ p.sas_table
    ++ p.sas_encoding_str ++ ";\n                " ++ p.bigints_str
    ++ "\n                " ++ p.fix_cr_code ++ "\n                "

/-- The transform-path template after the `fix_missing_str` slot. -/
def transformAfter (p : TransformPieces) : String :=
  "\n                " ++ p.where_str
    ++ "\n            run;\n\n            proc datasets lib=work;\n                modify "
    ++ p.new_table ++ "; \n                    " ++ p.unformat_str
    ++ "\n                    " ++ p.dates_str ++ "\n                    "
    ++ p.times_str ++ "\n                    " ++ p.timestamps_str
    ++ "\n            run;\n\n            proc export data=" ++ p.new_table
    ++ "(encoding=\"utf-8\") \n                outfile=stdout dbms=csv;\n            run;"

/-- The transform-path script (codegen.py lines 128-150). -/
def mkTransformScript (p : TransformPieces) : String :=
  transformBefore p ++ p.fix_missing_str ++ transformAfter p

/-- The simple-path script (codegen.py lines 153-159). -/
def mkSimpleScript (libname_stmt schema table_name rename_str : String) :
    String :=
  "\n            options nosource nonotes;\n            " ++ libname_stmt
    ++ "\n\n            proc export data=" ++ schema ++ "." ++ table_name
    ++ "(" ++ rename_str
    ++ " \n                              encoding=\"utf-8\") outfile=stdout dbms=csv;\n            run;"

/-- The transform-branch local strings of `get_wrds_sas`
(codegen.py lines 45-126), computed from the arguments and the merged
`col_types` map returned by `get_table_sql`. -/
def transformPieces (a : WrdsSasArgs) (col_types : List (String × String)) :
    TransformPieces :=
  let obs_str := if pyTruthyNat a.obs then " obs=" ++ toString (a.obs.getD 0)
    else ""
  let drop_str := if pyTruthy a.drop then " drop=" ++ optStr a.drop ++ " "
    else ""
  let keep_str := if pyTruthy a.keep then " keep=" ++ optStr a.keep ++ " "
    else ""
  let where_str := if pyTruthy a.whereCl then "where " ++ optStr a.whereCl ++ ";"
    else ""
  let sas_table :=
    if pyTruthyNat a.obs || pyTruthy a.drop || pyTruthy a.rename
        || pyTruthy a.keep then
      a.table_name ++ "(" ++ drop_str ++ keep_str ++ obs_str ++ renameStr a ++ ")"
    else a.table_name
  let new_table : String := ⟨(a.schema ++ a.table_name).data.take 32⟩
  let bigints := (col_types.filter (fun p => p.2 == "bigint")).map Prod.fst
  let bigints_str :=
    if bigints.isEmpty then ""
    else
      let decl := joinSep "\n"
        (bigints.map (fun v => "length " ++ v ++ "__chr $32;"))
      let conv := joinSep "\n"
        (bigints.map (fun v =>
          "if missing(" ++ v ++ ") then " ++ v ++ "__chr = \x27\x27;"
            ++ "else " ++ v ++ "__chr = strip(putn(" ++ v ++ ", \x2720.\x27));"
            ++ "drop " ++ v ++ ";"
            ++ "rename " ++ v ++ "__chr = " ++ v ++ ";"))
      decl ++ "\n" ++ conv
  let unformat_str :=
    if !col_types.isEmpty then
      joinSep " "
        (((col_types.filter (fun p =>
            !(["date", "time", "timestamp", "bigint"].contains p.2))).map
          Prod.fst).map (fun var => "attrib " ++ var ++ " format=;"))
    else ""
  let dates_str :=
    if !col_types.isEmpty then
      joinSep " "
        (((col_types.filter (fun p => p.2 == "date")).map Prod.fst).map
          (fun var => "attrib " ++ var ++ " format=YYMMDD10.;"))
    else ""
  let times_str :=
    if !col_types.isEmpty then
      joinSep " "
        (((col_types.filter (fun p => p.2 == "time")).map Prod.fst).map
          (fun var => "attrib " ++ var ++ " format=TIME8.;"))
    else ""
  let timestamps_str :=
    if !col_types.isEmpty then
      joinSep " "
        (((col_types.filter (fun p => p.2 == "timestamp")).map Prod.fst).map
          (fun var => "attrib " ++ var ++ " format=E8601DT19.;"))
    else ""
  { libname_stmt := libnameStmt a
    new_table := new_table
    schema := a.schema
    sas_table := sas_table
    sas_encoding_str := sasEncodingStr a
    bigints_str := bigints_str
    fix_cr_code := if a.fix_cr then fix_cr_block else ""
    fix_missing_str := if a.fix_missing || a.fix_cr then fix_missing_block
      else ""
    where_str := where_str
    unformat_str := unformat_str
    dates_str := dates_str
    times_str := times_str
    timestamps_str := timestamps_str }

/-- Embedding of `get_wrds_sas` (src/wrds2pg/sas/codegen.py lines 5-160).
`fix_missing = True` under `fix_cr` (line 19) is reflected by using
`a.fix_missing || a.fix_cr` wherever the source reads the reassigned
`fix_missing`.  The path condition (line 45) tests the *merged inferred*
`col_types` map, not the caller's argument. -/
def get_wrds_sas_model (a : WrdsSasArgs) (rows : List MetaRow) :
    Option String :=
  if rows.isEmpty then none
  else
    let col_types := applyColTypes (inferTypes rows) a.col_types
    if (a.fix_missing || a.fix_cr) || pyTruthy a.drop || pyTruthyNat a.obs
        || pyTruthy a.keep || !col_types.isEmpty || pyTruthy a.whereCl then
      some (mkTransformScript (transformPieces a col_types))
    else
      some (mkSimpleScript (libnameStmt a) a.schema a.table_name (renameStr a))

lemma dinsert_ne_nil (m : List (String × String)) (k v : String) :
    dinsert m k v ≠ [] := by
  cases m with
  | nil => simp [dinsert]
  | cons p t =>
    simp only [dinsert]
    split <;> simp

lemma foldl_dinsert_ne_nil (f g : String × String → String)
    (l : List (String × String)) (m : List (String × String)) (h : m ≠ []) :
    l.foldl (fun acc p => dinsert acc (f p) (g p)) m ≠ [] := by
  induction l generalizing m with
  | nil => simpa
  | cons p t ih => exact ih _ (dinsert_ne_nil _ _ _)

lemma inferTypes_ne_nil (r : MetaRow) (rs : List MetaRow) :
    inferTypes (r :: rs) ≠ [] := by
  unfold inferTypes
  simp only [metaNames, List.map_cons, List.zip_cons_cons, List.foldl_cons]
  exact foldl_dinsert_ne_nil (fun p => p.1) (fun p => p.2) _ _
    (dinsert_ne_nil _ _ _)

lemma applyColTypes_ne_nil (m ct : List (String × String)) (h : m ≠ []) :
    applyColTypes m ct ≠ [] :=
  foldl_dinsert_ne_nil (fun p => lowerStr p.1) (fun p => p.2) ct m h

set_option maxHeartbeats 2000000 in
/-- C4 counterexample: with *no* directive present — `fix_missing`,
`fix_cr`, `drop`, `keep`, `obs`, `where` all absent and an empty caller
`col_types` — the generator still does not emit the simple
direct-serialization script (the path condition tests the merged
*inferred* `col_types` map, nonempty for any table with a column). -/
theorem get_wrds_sas_simple_path_counterexample :
    get_wrds_sas_model
        ⟨"dsi", "crsp", none, none, none, false, [], false, none, none,
          none, none⟩
        [⟨"date", 1, "YYMMDD10.", 10, 0⟩]
      ≠ some (mkSimpleScript
          (libnameStmt ⟨"dsi", "crsp", none, none, none, false, [], false,
            none, none, none, none⟩)
          "crsp" "dsi"
          (renameStr ⟨"dsi", "crsp", none, none, none, false, [], false,
            none, none, none, none⟩)) := by
  decide

/-- C4 amended: the export generator materializes the intermediate
dataset (transform path) whenever the reassigned `fix_missing`
(`fix_missing or fix_cr`), `drop`, `obs`, `keep`, `where`, or the merged
inferred `col_types` map is truthy; since that map is nonempty whenever
the metadata report has at least one row, the transform path is taken
for *every* successfully generated script and the simple path is
unreachable. -/
theorem get_wrds_sas_transform_path_always (a : WrdsSasArgs)
    (rows : List MetaRow) (hrows : rows ≠ []) :
    get_wrds_sas_model a rows
      = some (mkTransformScript
          (transformPieces a (applyColTypes (inferTypes rows) a.col_types))) := by
  cases rows with
  | nil => exact absurd rfl hrows
  | cons r rs =>
    have hct : applyColTypes (inferTypes (r :: rs)) a.col_types ≠ [] :=
      applyColTypes_ne_nil _ _ (inferTypes_ne_nil r rs)
    have hempty : (applyColTypes (inferTypes (r :: rs)) a.col_types).isEmpty
        = false := by
      simpa [List.isEmpty_iff] using hct
    simp [get_wrds_sas_model, hempty]

/-- Witness for the amended C4 theorem at a one-column report with no
directives. -/
theorem get_wrds_sas_transform_path_always_witness :
    get_wrds_sas_model
        ⟨"dsi", "crsp", none, none, none, false, [], false, none, none,
          none, none⟩
        [⟨"date", 1, "YYMMDD10.", 10, 0⟩]
      = some (mkTransformScript
          (transformPieces
            ⟨"dsi", "crsp", none, none, none, false, [], false, none, none,
              none, none⟩
            (applyColTypes
              (inferTypes [⟨"date", 1, "YYMMDD10.", 10, 0⟩]) []))) :=
  get_wrds_sas_transform_path_always _ _ (by decide)

/-- C9: passing `fix_cr=True` forces missing-value normalization: the
generated script is identical to the one generated with
`fix_missing=True`, and (for a nonempty metadata report) the emitted
script literally contains the `fix_missing` block in its
`fix_missing_str` slot even though the caller passed
`fix_missing=False`. -/
theorem get_wrds_sas_fix_cr_forces_fix_missing (a : WrdsSasArgs)
    (rows : List MetaRow) (hcr : a.fix_cr = true) (hrows : rows ≠ []) :
    get_wrds_sas_model a rows
      = get_wrds_sas_model { a with fix_missing := true } rows ∧
    (get_wrds_sas_model a rows).map String.data
      = some ((transformBefore (transformPieces a
            (applyColTypes (inferTypes rows) a.col_types))).data
          ++ fix_missing_block.data
          ++ (transformAfter (transformPieces a
            (applyColTypes (inferTypes rows) a.col_types))).data) := by
  constructor
  · simp [get_wrds_sas_model, transformPieces, libnameStmt, renameStr,
      sasEncodingStr, hcr]
  · rw [get_wrds_sas_transform_path_always a rows hrows]
    have hfm : (transformPieces a
        (applyColTypes (inferTypes rows) a.col_types)).fix_missing_str
        = fix_missing_block := by
      simp [transformPieces, hcr]
    simp only [Option.map_some', Option.some.injEq, mkTransformScript,
      String.data_append, hfm, List.append_assoc]

/-- Witness for C9 at a concrete call with `fix_cr=True`,
`fix_missing=False` on a one-column report. -/
theorem get_wrds_sas_fix_cr_forces_fix_missing_witness :
    get_wrds_sas_model
        ⟨"dsi", "crsp", none, none, none, true, [], false, none, none,
          none, none⟩
        [⟨"ret", 1, "", 0, 0⟩]
      = get_wrds_sas_model
          ⟨"dsi", "crsp", none, none, none, true, [], true, none, none,
            none, none⟩
          [⟨"ret", 1, "", 0, 0⟩] :=
  (get_wrds_sas_fix_cr_forces_fix_missing
    ⟨"dsi", "crsp", none, none, none, true, [], false, none, none, none,
      none⟩
    [⟨"ret", 1, "", 0, 0⟩] rfl (by decide)).1

/-! ## Delimited-file sink marker codec (`files/csv.py`)

`modified_encode` parses `"Last modified: MM/DD/YYYY HH:MM:SS"` with
`strptime`, attaches the fixed source zone `America/Chicago`
(PEP 495 `fold=0`), converts to UTC and returns the epoch timestamp.
`modified_decode` turns an epoch timestamp back into the marker string:
`datetime.fromtimestamp(mtime)` yields the host-local wall clock of the
instant and `.astimezone(ZoneInfo("America/Chicago"))` reinterprets that
naive value in the host zone and converts it to Chicago — the host-zone
leg cancels exactly, leaving the Chicago wall clock of the instant,
which `strftime` then formats zero-padded.

The model works in whole seconds (`strptime` markers have integral
seconds) over the proleptic Gregorian calendar with epoch day 0 =
1970-01-01, and uses the post-2007 US DST rules that the tz database
prescribes for America/Chicago in every year from 2007 on: CDT (UTC-5)
from 02:00 standard time on the second Sunday of March until 02:00
daylight time on the first Sunday of November, CST (UTC-6) otherwise;
`fold=0` resolves the skipped spring hour with the pre-transition (CST)
offset and the repeated fall hour with the pre-transition (CDT)
offset. -/

def isLeap (y : Nat) : Bool := y % 4 == 0 && (y % 100 != 0 || y % 400 == 0)

def leapAdj (y : Nat) : Nat := if isLeap y then 1 else 0

def daysInMonth (y m : Nat) : Nat :=
  match m with
  | 1 => 31 | 2 => 28 + leapAdj y | 3 => 31 | 4 => 30 | 5 => 31 | 6 => 30
  | 7 => 31 | 8 => 31 | 9 => 30 | 10 => 31 | 11 => 30 | 12 => 31 | _ => 0

def daysBeforeMonth (y m : Nat) : Nat :=
  match m with
  | 1 => 0 | 2 => 31 | 3 => 59 + leapAdj y | 4 => 90 + leapAdj y
  | 5 => 120 + leapAdj y | 6 => 151 + leapAdj y | 7 => 181 + leapAdj y
  | 8 => 212 + leapAdj y | 9 => 243 + leapAdj y | 10 => 273 + leapAdj y
  | 11 => 304 + leapAdj y | _ => 334 + leapAdj y

def daysInYear (y : Nat) : Nat := 365 + leapAdj y

/-- Days from 1970-01-01 to the start of year `y + k`, summed year by
year from `y`. -/
def sumDaysFrom (y : Nat) : Nat → Nat
  | 0 => 0
  | k + 1 => daysInYear y + sumDaysFrom (y + 1) k

def daysToYear (y : Nat) : Nat := sumDaysFrom 1970 (y - 1970)

def toEpochDay (y m d : Nat) : Nat :=
  daysToYear y + daysBeforeMonth y m + (d - 1)

def yearLoop : Nat → Nat → Nat → Nat × Nat
  | 0, y, r => (y, r)
  | fuel + 1, y, r =>
    if r < daysInYear y then (y, r)
    else yearLoop fuel (y + 1) (r - daysInYear y)

def monthFromDoy (y doy : Nat) : Nat × Nat :=
  if doy < 31 then (1, doy + 1)
  else if doy < 59 + leapAdj y then (2, doy - 31 + 1)
  else if doy < 90 + leapAdj y then (3, doy - (59 + leapAdj y) + 1)
  else if doy < 120 + leapAdj y then (4, doy - (90 + leapAdj y) + 1)
  else if doy < 151 + leapAdj y then (5, doy - (120 + leapAdj y) + 1)
  else if doy < 181 + leapAdj y then (6, doy - (151 + leapAdj y) + 1)
  else if doy < 212 + leapAdj y then (7, doy - (181 + leapAdj y) + 1)
  else if doy < 243 + leapAdj y then (8, doy - (212 + leapAdj y) + 1)
  else if doy < 273 + leapAdj y then (9, doy - (243 + leapAdj y) + 1)
  else if doy < 304 + leapAdj y then (10, doy - (273 + leapAdj y) + 1)
  else if doy < 334 + leapAdj y then (11, doy - (304 + leapAdj y) + 1)
  else (12, doy - (334 + leapAdj y) + 1)

def fromEpochDay (n : Nat) : Nat × Nat × Nat :=
  let yr := yearLoop (n + 1) 1970 n
  let md := monthFromDoy yr.1 yr.2
  (yr.1, md.1, md.2)

/-- The six wall-clock fields of a marker. -/
structure MarkerFields where
  year : Nat
  month : Nat
  day : Nat
  hour : Nat
  minute : Nat
  second : Nat
deriving Repr, DecidableEq

/-- Seconds from 1970-01-01 00:00:00 to the wall-clock value, reading the
fields as a proleptic-Gregorian date-time. -/
def wallSecs (f : MarkerFields) : Nat :=
  86400 * toEpochDay f.year f.month f.day
    + 3600 * f.hour + 60 * f.minute + f.second

def fieldsOfSecs (w : Nat) : MarkerFields :=
  let ymd := fromEpochDay (w / 86400)
  let rem := w % 86400
  ⟨ymd.1, ymd.2.1, ymd.2.2, rem / 3600, rem % 3600 / 60, rem % 60⟩

/-- 1970-01-01 was a Thursday; `0` is Sunday. -/
def dayOfWeek (epochDay : Nat) : Nat := (epochDay + 4) % 7

def firstSundayDay (y m : Nat) : Nat :=
  (7 - dayOfWeek (toEpochDay y m 1)) % 7 + 1

def secondSundayMarch (y : Nat) : Nat := firstSundayDay y 3 + 7

def firstSundayNov (y : Nat) : Nat := firstSundayDay y 11

/-- Start of the skipped hour: 02:00 wall clock on the second Sunday of
March. -/
def gapStartWall (y : Nat) : Nat :=
  wallSecs ⟨y, 3, secondSundayMarch y, 2, 0, 0⟩

/-- First wall-clock second that is unambiguously daylight time. -/
def dstStartWall (y : Nat) : Nat :=
  wallSecs ⟨y, 3, secondSundayMarch y, 3, 0, 0⟩

/-- 02:00 wall clock on the first Sunday of November (first standard-time
reading; under `fold=0` the preceding repeated hour resolves to CDT). -/
def dstEndWall (y : Nat) : Nat :=
  wallSecs ⟨y, 11, firstSundayNov y, 2, 0, 0⟩

/-- Is the wall-clock value daylight time under `fold=0`? -/
def chicagoWallDst (f : MarkerFields) : Bool :=
  decide (dstStartWall f.year ≤ wallSecs f)
    && decide (wallSecs f < dstEndWall f.year)

/-- Seconds to add to the Chicago wall clock to reach UTC (`fold=0`). -/
def wallOffset (f : MarkerFields) : Nat :=
  if chicagoWallDst f then 18000 else 21600

/-- The UTC instant of the spring transition (02:00 CST). -/
def dstStartUtc (y : Nat) : Nat := gapStartWall y + 21600

/-- The UTC instant of the fall transition (02:00 CDT). -/
def dstEndUtc (y : Nat) : Nat := dstEndWall y + 18000

/-- Is the UTC instant `u` inside Chicago daylight time? -/
def utcDst (u : Nat) : Bool :=
  let y := (fromEpochDay (u / 86400)).1
  decide (dstStartUtc y ≤ u) && decide (u < dstEndUtc y)

def dch (n : Nat) : Char := Char.ofNat (48 + n)

def dval (c : Char) : Nat := c.toNat - 48

def pad2 (n : Nat) : List Char := [dch (n / 10), dch (n % 10)]

def pad4 (n : Nat) : List Char :=
  [dch (n / 1000), dch (n / 100 % 10), dch (n / 10 % 10), dch (n % 10)]

/-- `strftime("Last modified: %m/%d/%Y %H:%M:%S")`. -/
def formatMarker (f : MarkerFields) : String :=
  ⟨"Last modified: ".data
    ++ pad2 f.month ++ '/' :: pad2 f.day ++ '/' :: pad4 f.year
    ++ ' ' :: pad2 f.hour ++ ':' :: pad2 f.minute ++ ':' :: pad2 f.second⟩

def readLit : List Char → List Char → Option (List Char)
  | [], rest => some rest
  | e :: es, x :: rest => if x = e then readLit es rest else none
  | _ :: _, [] => none

def read2 : List Char → Option (Nat × List Char)
  | a :: b :: rest =>
    if a.isDigit && b.isDigit then some (10 * dval a + dval b, rest) else none
  | _ => none

def read4 : List Char → Option (Nat × List Char)
  | a :: b :: c :: d :: rest =>
    if a.isDigit && b.isDigit && c.isDigit && d.isDigit then
      some (1000 * dval a + 100 * dval b + 10 * dval c + dval d, rest)
    else none
  | _ => none

def readChar (c : Char) : List Char → Option (List Char)
  | x :: rest => if x = c then some rest else none
  | [] => none

/-- `datetime.strptime(s[len("Last modified: "):], "%m/%d/%Y %H:%M:%S")`
restricted to the canonical zero-padded layout that `strftime` emits
(strptime additionally tolerates unpadded fields, which the formatter
never produces), including `datetime`'s own field-range validation. -/
def parseMarker (s : String) : Option MarkerFields :=
  (readLit "Last modified: ".data s.data).bind fun r0 =>
  (read2 r0).bind fun mo =>
  (readChar '/' mo.2).bind fun r1 =>
  (read2 r1).bind fun d =>
  (readChar '/' d.2).bind fun r2 =>
  (read4 r2).bind fun y =>
  (readChar ' ' y.2).bind fun r3 =>
  (read2 r3).bind fun h =>
  (readChar ':' h.2).bind fun r4 =>
  (read2 r4).bind fun mi =>
  (readChar ':' mi.2).bind fun r5 =>
  (read2 r5).bind fun sec =>
  if sec.2 = [] ∧ 1 ≤ mo.1 ∧ mo.1 ≤ 12 ∧ 1 ≤ d.1
      ∧ d.1 ≤ daysInMonth y.1 mo.1 ∧ h.1 ≤ 23 ∧ mi.1 ≤ 59 ∧ sec.1 ≤ 59 then
    some ⟨y.1, mo.1, d.1, h.1, mi.1, sec.1⟩
  else none

/-- Embedding of `modified_encode` (src/wrds2pg/files/csv.py lines
14-24); `none` models the `ValueError` on a malformed marker. -/
def modified_encode_model (s : String) : Option Nat :=
  (parseMarker s).map (fun f => wallSecs f + wallOffset f)

/-- Embedding of `modified_decode` (src/wrds2pg/files/csv.py lines
26-43): the Chicago wall clock of the instant, formatted. -/
def modified_decode_model (u : Nat) : String :=
  formatMarker (fieldsOfSecs (u - (if utcDst u then 18000 else 21600)))

lemma dch_isDigit (n : Nat) (h : n ≤ 9) : (dch n).isDigit = true := by
  interval_cases n <;> decide

lemma dval_dch (n : Nat) (h : n ≤ 9) : dval (dch n) = n := by
  interval_cases n <;> decide

lemma read2_pad2 (n : Nat) (rest : List Char) (h : n < 100) :
    read2 (pad2 n ++ rest) = some (n, rest) := by
  have h1 : n / 10 ≤ 9 := by omega
  have h2 : n % 10 ≤ 9 := by omega
  simp [pad2, read2, dch_isDigit _ h1, dch_isDigit _ h2,
    dval_dch _ h1, dval_dch _ h2]
  omega

lemma read4_pad4 (n : Nat) (rest : List Char) (h : n < 10000) :
    read4 (pad4 n ++ rest) = some (n, rest) := by
  have h1 : n / 1000 ≤ 9 := by omega
  have h2 : n / 100 % 10 ≤ 9 := by omega
  have h3 : n / 10 % 10 ≤ 9 := by omega
  have h4 : n % 10 ≤ 9 := by omega
  simp [pad4, read4, dch_isDigit _ h1, dch_isDigit _ h2, dch_isDigit _ h3,
    dch_isDigit _ h4, dval_dch _ h1, dval_dch _ h2, dval_dch _ h3,
    dval_dch _ h4]
  omega

lemma read2_pad2_nil (n : Nat) (h : n < 100) :
    read2 (pad2 n) = some (n, []) := by
  have h1 : n / 10 ≤ 9 := by omega
  have h2 : n % 10 ≤ 9 := by omega
  simp [pad2, read2, dch_isDigit _ h1, dch_isDigit _ h2,
    dval_dch _ h1, dval_dch _ h2]
  omega

lemma readChar_cons (c : Char) (rest : List Char) :
    readChar c (c :: rest) = some rest := by
  simp [readChar]

lemma readLit_self (es rest : List Char) : readLit es (es ++ rest) = some rest := by
  induction es with
  | nil => rfl
  | cons e t ih => simp [readLit, ih]

lemma daysInMonth_le (y m : Nat) : daysInMonth y m ≤ 31 := by
  rcases m with _ | _ | _ | _ | _ | _ | _ | _ | _ | _ | _ | _ | _ | m <;>
    simp [daysInMonth, leapAdj] <;> split <;> omega

lemma parseMarker_formatMarker (f : MarkerFields)
    (hy2 : f.year ≤ 9999) (hm : 1 ≤ f.month) (hm2 : f.month ≤ 12)
    (hd : 1 ≤ f.day) (hd2 : f.day ≤ daysInMonth f.year f.month)
    (hh : f.hour ≤ 23) (hmi : f.minute ≤ 59) (hs : f.second ≤ 59) :
    parseMarker (formatMarker f) = some f := by
  have hdle : f.day < 100 := by
    have := daysInMonth_le f.year f.month
    omega
  unfold parseMarker formatMarker
  rw [show ("Last modified: ".data
        ++ pad2 f.month ++ '/' :: pad2 f.day ++ '/' :: pad4 f.year
        ++ ' ' :: pad2 f.hour ++ ':' :: pad2 f.minute ++ ':' :: pad2 f.second
      : List Char)
      = "Last modified: ".data
        ++ (pad2 f.month ++ ('/' :: (pad2 f.day ++ ('/' :: (pad4 f.year
          ++ (' ' :: (pad2 f.hour ++ (':' :: (pad2 f.minute
          ++ (':' :: pad2 f.second))))))))))
    from by simp]
  rw [readLit_self, Option.some_bind, read2_pad2 f.month _ (by omega),
    Option.some_bind, readChar_cons, Option.some_bind,
    read2_pad2 f.day _ hdle, Option.some_bind, readChar_cons,
    Option.some_bind, read4_pad4 f.year _ (by omega), Option.some_bind,
    readChar_cons, Option.some_bind, read2_pad2 f.hour _ (by omega),
    Option.some_bind, readChar_cons, Option.some_bind,
    read2_pad2 f.minute _ (by omega), Option.some_bind, readChar_cons,
    Option.some_bind, read2_pad2_nil f.second (by omega), Option.some_bind]
  rw [if_pos ⟨rfl, hm, hm2, hd, hd2, hh, hmi, hs⟩]

lemma daysBeforeMonth_add_lt (y m d : Nat) (hm : 1 ≤ m) (hm2 : m ≤ 12)
    (hd : 1 ≤ d) (hd2 : d ≤ daysInMonth y m) :
    daysBeforeMonth y m + (d - 1) < daysInYear y := by
  interval_cases m <;>
    simp only [daysBeforeMonth, daysInMonth, daysInYear, leapAdj] at hd2 ⊢ <;>
    split_ifs at * <;> omega

lemma monthFromDoy_daysBeforeMonth (y m d : Nat) (hm : 1 ≤ m) (hm2 : m ≤ 12)
    (hd : 1 ≤ d) (hd2 : d ≤ daysInMonth y m) :
    monthFromDoy y (daysBeforeMonth y m + (d - 1)) = (m, d) := by
  interval_cases m
  · have hb : d ≤ 31 := hd2
    have cp : 0 + (d - 1) < 31 := by omega
    rw [show daysBeforeMonth y 1 = 0 from rfl,
      monthFromDoy,
      if_pos cp,
      show 0 + (d - 1) + 1 = d from by omega]
  · have hb : d ≤ 28 + leapAdj y := hd2
    have c1 : ¬(31 + (d - 1) < 31) := by omega
    have cp : 31 + (d - 1) < 59 + leapAdj y := by omega
    rw [show daysBeforeMonth y 2 = 31 from rfl,
      monthFromDoy,
      if_neg c1,
      if_pos cp,
      show 31 + (d - 1) - 31 + 1 = d from by omega]
  · have hb : d ≤ 31 := hd2
    have c1 : ¬(59 + leapAdj y + (d - 1) < 31) := by omega
    have c2 : ¬(59 + leapAdj y + (d - 1) < 59 + leapAdj y) := by omega
    have cp : 59 + leapAdj y + (d - 1) < 90 + leapAdj y := by omega
    rw [show daysBeforeMonth y 3 = 59 + leapAdj y from rfl,
      monthFromDoy,
      if_neg c1,
      if_neg c2,
      if_pos cp,
      show 59 + leapAdj y + (d - 1) - (59 + leapAdj y) + 1 = d from by omega]
  · have hb : d ≤ 30 := hd2
    have c1 : ¬(90 + leapAdj y + (d - 1) < 31) := by omega
    have c2 : ¬(90 + leapAdj y + (d - 1) < 59 + leapAdj y) := by omega
    have c3 : ¬(90 + leapAdj y + (d - 1) < 90 + leapAdj y) := by omega
    have cp : 90 + leapAdj y + (d - 1) < 120 + leapAdj y := by omega
    rw [show daysBeforeMonth y 4 = 90 + leapAdj y from rfl,
      monthFromDoy,
      if_neg c1,
      if_neg c2,
      if_neg c3,
      if_pos cp,
      show 90 + leapAdj y + (d - 1) - (90 + leapAdj y) + 1 = d from by omega]
  · have hb : d ≤ 31 := hd2
    have c1 : ¬(120 + leapAdj y + (d - 1) < 31) := by omega
    have c2 : ¬(120 + leapAdj y + (d - 1) < 59 + leapAdj y) := by omega
    have c3 : ¬(120 + leapAdj y + (d - 1) < 90 + leapAdj y) := by omega
    have c4 : ¬(120 + leapAdj y + (d - 1) < 120 + leapAdj y) := by omega
    have cp : 120 + leapAdj y + (d - 1) < 151 + leapAdj y := by omega
    rw [show daysBeforeMonth y 5 = 120 + leapAdj y from rfl,
      monthFromDoy,
      if_neg c1,
      if_neg c2,
      if_neg c3,
      if_neg c4,
      if_pos cp,
      show 120 + leapAdj y + (d - 1) - (120 + leapAdj y) + 1 = d from by omega]
  · have hb : d ≤ 30 := hd2
    have c1 : ¬(151 + leapAdj y + (d - 1) < 31) := by omega
    have c2 : ¬(151 + leapAdj y + (d - 1) < 59 + leapAdj y) := by omega
    have c3 : ¬(151 + leapAdj y + (d - 1) < 90 + leapAdj y) := by omega
    have c4 : ¬(151 + leapAdj y + (d - 1) < 120 + leapAdj y) := by omega
    have c5 : ¬(151 + leapAdj y + (d - 1) < 151 + leapAdj y) := by omega
    have cp : 151 + leapAdj y + (d - 1) < 181 + leapAdj y := by omega
    rw [show daysBeforeMonth y 6 = 151 + leapAdj y from rfl,
      monthFromDoy,
      if_neg c1,
      if_neg c2,
      if_neg c3,
      if_neg c4,
      if_neg c5,
      if_pos cp,
      show 151 + leapAdj y + (d - 1) - (151 + leapAdj y) + 1 = d from by omega]
  · have hb : d ≤ 31 := hd2
    have c1 : ¬(181 + leapAdj y + (d - 1) < 31) := by omega
    have c2 : ¬(181 + leapAdj y + (d - 1) < 59 + leapAdj y) := by omega
    have c3 : ¬(181 + leapAdj y + (d - 1) < 90 + leapAdj y) := by omega
    have c4 : ¬(181 + leapAdj y + (d - 1) < 120 + leapAdj y) := by omega
    have c5 : ¬(181 + leapAdj y + (d - 1) < 151 + leapAdj y) := by omega
    have c6 : ¬(181 + leapAdj y + (d - 1) < 181 + leapAdj y) := by omega
    have cp : 181 + leapAdj y + (d - 1) < 212 + leapAdj y := by omega
    rw [show daysBeforeMonth y 7 = 181 + leapAdj y from rfl,
      monthFromDoy,
      if_neg c1,
      if_neg c2,
      if_neg c3,
      if_neg c4,
      if_neg c5,
      if_neg c6,
      if_pos cp,
      show 181 + leapAdj y + (d - 1) - (181 + leapAdj y) + 1 = d from by omega]
  · have hb : d ≤ 31 := hd2
    have c1 : ¬(212 + leapAdj y + (d - 1) < 31) := by omega
    have c2 : ¬(212 + leapAdj y + (d - 1) < 59 + leapAdj y) := by omega
    have c3 : ¬(212 + leapAdj y + (d - 1) < 90 + leapAdj y) := by omega
    have c4 : ¬(212 + leapAdj y + (d - 1) < 120 + leapAdj y) := by omega
    have c5 : ¬(212 + leapAdj y + (d - 1) < 151 + leapAdj y) := by omega
    have c6 : ¬(212 + leapAdj y + (d - 1) < 181 + leapAdj y) := by omega
    have c7 : ¬(212 + leapAdj y + (d - 1) < 212 + leapAdj y) := by omega
    have cp : 212 + leapAdj y + (d - 1) < 243 + leapAdj y := by omega
    rw [show daysBeforeMonth y 8 = 212 + leapAdj y from rfl,
      monthFromDoy,
      if_neg c1,
      if_neg c2,
      if_neg c3,
      if_neg c4,
      if_neg c5,
      if_neg c6,
      if_neg c7,
      if_pos cp,
      show 212 + leapAdj y + (d - 1) - (212 + leapAdj y) + 1 = d from by omega]
  · have hb : d ≤ 30 := hd2
    have c1 : ¬(243 + leapAdj y + (d - 1) < 31) := by omega
    have c2 : ¬(243 + leapAdj y + (d - 1) < 59 + leapAdj y) := by omega
    have c3 : ¬(243 + leapAdj y + (d - 1) < 90 + leapAdj y) := by omega
    have c4 : ¬(243 + leapAdj y + (d - 1) < 120 + leapAdj y) := by omega
    have c5 : ¬(243 + leapAdj y + (d - 1) < 151 + leapAdj y) := by omega
    have c6 : ¬(243 + leapAdj y + (d - 1) < 181 + leapAdj y) := by omega
    have c7 : ¬(243 + leapAdj y + (d - 1) < 212 + leapAdj y) := by omega
    have c8 : ¬(243 + leapAdj y + (d - 1) < 243 + leapAdj y) := by omega
    have cp : 243 + leapAdj y + (d - 1) < 273 + leapAdj y := by omega
    rw [show daysBeforeMonth y 9 = 243 + leapAdj y from rfl,
      monthFromDoy,
      if_neg c1,
      if_neg c2,
      if_neg c3,
      if_neg c4,
      if_neg c5,
      if_neg c6,
      if_neg c7,
      if_neg c8,
      if_pos cp,
      show 243 + leapAdj y + (d - 1) - (243 + leapAdj y) + 1 = d from by omega]
  · have hb : d ≤ 31 := hd2
    have c1 : ¬(273 + leapAdj y + (d - 1) < 31) := by omega
    have c2 : ¬(273 + leapAdj y + (d - 1) < 59 + leapAdj y) := by omega
    have c3 : ¬(273 + leapAdj y + (d - 1) < 90 + leapAdj y) := by omega
    have c4 : ¬(273 + leapAdj y + (d - 1) < 120 + leapAdj y) := by omega
    have c5 : ¬(273 + leapAdj y + (d - 1) < 151 + leapAdj y) := by omega
    have c6 : ¬(273 + leapAdj y + (d - 1) < 181 + leapAdj y) := by omega
    have c7 : ¬(273 + leapAdj y + (d - 1) < 212 + leapAdj y) := by omega
    have c8 : ¬(273 + leapAdj y + (d - 1) < 243 + leapAdj y) := by omega
    have c9 : ¬(273 + leapAdj y + (d - 1) < 273 + leapAdj y) := by omega
    have cp : 273 + leapAdj y + (d - 1) < 304 + leapAdj y := by omega
    rw [show daysBeforeMonth y 10 = 273 + leapAdj y from rfl,
      monthFromDoy,
      if_neg c1,
      if_neg c2,
      if_neg c3,
      if_neg c4,
      if_neg c5,
      if_neg c6,
      if_neg c7,
      if_neg c8,
      if_neg c9,
      if_pos cp,
      show 273 + leapAdj y + (d - 1) - (273 + leapAdj y) + 1 = d from by omega]
  · have hb : d ≤ 30 := hd2
    have c1 : ¬(304 + leapAdj y + (d - 1) < 31) := by omega
    have c2 : ¬(304 + leapAdj y + (d - 1) < 59 + leapAdj y) := by omega
    have c3 : ¬(304 + leapAdj y + (d - 1) < 90 + leapAdj y) := by omega
    have c4 : ¬(304 + leapAdj y + (d - 1) < 120 + leapAdj y) := by omega
    have c5 : ¬(304 + leapAdj y + (d - 1) < 151 + leapAdj y) := by omega
    have c6 : ¬(304 + leapAdj y + (d - 1) < 181 + leapAdj y) := by omega
    have c7 : ¬(304 + leapAdj y + (d - 1) < 212 + leapAdj y) := by omega
    have c8 : ¬(304 + leapAdj y + (d - 1) < 243 + leapAdj y) := by omega
    have c9 : ¬(304 + leapAdj y + (d - 1) < 273 + leapAdj y) := by omega
    have c10 : ¬(304 + leapAdj y + (d - 1) < 304 + leapAdj y) := by omega
    have cp : 304 + leapAdj y + (d - 1) < 334 + leapAdj y := by omega
    rw [show daysBeforeMonth y 11 = 304 + leapAdj y from rfl,
      monthFromDoy,
      if_neg c1,
      if_neg c2,
      if_neg c3,
      if_neg c4,
      if_neg c5,
      if_neg c6,
      if_neg c7,
      if_neg c8,
      if_neg c9,
      if_neg c10,
      if_pos cp,
      show 304 + leapAdj y + (d - 1) - (304 + leapAdj y) + 1 = d from by omega]
  · have hb : d ≤ 31 := hd2
    have c1 : ¬(334 + leapAdj y + (d - 1) < 31) := by omega
    have c2 : ¬(334 + leapAdj y + (d - 1) < 59 + leapAdj y) := by omega
    have c3 : ¬(334 + leapAdj y + (d - 1) < 90 + leapAdj y) := by omega
    have c4 : ¬(334 + leapAdj y + (d - 1) < 120 + leapAdj y) := by omega
    have c5 : ¬(334 + leapAdj y + (d - 1) < 151 + leapAdj y) := by omega
    have c6 : ¬(334 + leapAdj y + (d - 1) < 181 + leapAdj y) := by omega
    have c7 : ¬(334 + leapAdj y + (d - 1) < 212 + leapAdj y) := by omega
    have c8 : ¬(334 + leapAdj y + (d - 1) < 243 + leapAdj y) := by omega
    have c9 : ¬(334 + leapAdj y + (d - 1) < 273 + leapAdj y) := by omega
    have c10 : ¬(334 + leapAdj y + (d - 1) < 304 + leapAdj y) := by omega
    have c11 : ¬(334 + leapAdj y + (d - 1) < 334 + leapAdj y) := by omega
    rw [show daysBeforeMonth y 12 = 334 + leapAdj y from rfl,
      monthFromDoy,
      if_neg c1,
      if_neg c2,
      if_neg c3,
      if_neg c4,
      if_neg c5,
      if_neg c6,
      if_neg c7,
      if_neg c8,
      if_neg c9,
      if_neg c10,
      if_neg c11,
      show 334 + leapAdj y + (d - 1) - (334 + leapAdj y) + 1 = d from by omega]

lemma sumDaysFrom_ge (y k : Nat) : k ≤ sumDaysFrom y k := by
  induction k generalizing y with
  | zero => simp [sumDaysFrom]
  | succ k ih =>
    have := ih (y + 1)
    simp only [sumDaysFrom, daysInYear]
    omega

lemma yearLoop_exact (k : Nat) : ∀ (y r fuel : Nat),
    r < daysInYear (y + k) → k < fuel →
    yearLoop fuel y (sumDaysFrom y k + r) = (y + k, r) := by
  induction k with
  | zero =>
    intro y r fuel hr hf
    obtain ⟨g, rfl⟩ : ∃ g, fuel = g + 1 := ⟨fuel - 1, by omega⟩
    simp only [sumDaysFrom, Nat.zero_add, yearLoop]
    rw [if_pos (by simpa using hr)]
    simp
  | succ k ih =>
    intro y r fuel hr hf
    obtain ⟨g, rfl⟩ : ∃ g, fuel = g + 1 := ⟨fuel - 1, by omega⟩
    have hr' : r < daysInYear (y + 1 + k) := by
      have hyk : y + 1 + k = y + (k + 1) := by omega
      rw [hyk]
      exact hr
    have hstep : daysInYear y + sumDaysFrom (y + 1) k + r - daysInYear y
        = sumDaysFrom (y + 1) k + r := by omega
    simp only [sumDaysFrom, yearLoop]
    rw [if_neg (by omega), hstep, ih (y + 1) r g hr' (by omega),
      show y + 1 + k = y + (k + 1) from by omega]

lemma fromEpochDay_toEpochDay (y m d : Nat) (hy : 1970 ≤ y) (hm : 1 ≤ m)
    (hm2 : m ≤ 12) (hd : 1 ≤ d) (hd2 : d ≤ daysInMonth y m) :
    fromEpochDay (toEpochDay y m d) = (y, m, d) := by
  have hdoy : daysBeforeMonth y m + (d - 1) < daysInYear y :=
    daysBeforeMonth_add_lt y m d hm hm2 hd hd2
  have hk : 1970 + (y - 1970) = y := by omega
  have hr' : daysBeforeMonth y m + (d - 1)
      < daysInYear (1970 + (y - 1970)) := by
    rw [hk]
    exact hdoy
  have hsplit : toEpochDay y m d
      = sumDaysFrom 1970 (y - 1970) + (daysBeforeMonth y m + (d - 1)) := by
    unfold toEpochDay daysToYear
    omega
  have hloop : yearLoop (toEpochDay y m d + 1) 1970 (toEpochDay y m d)
      = (y, daysBeforeMonth y m + (d - 1)) := by
    have hfuel : y - 1970 < toEpochDay y m d + 1 := by
      have := sumDaysFrom_ge 1970 (y - 1970)
      omega
    have := yearLoop_exact (y - 1970) 1970 (daysBeforeMonth y m + (d - 1))
      (toEpochDay y m d + 1) hr' hfuel
    rw [hk] at this
    calc yearLoop (toEpochDay y m d + 1) 1970 (toEpochDay y m d)
        = yearLoop (toEpochDay y m d + 1) 1970
            (sumDaysFrom 1970 (y - 1970) + (daysBeforeMonth y m + (d - 1))) := by
          rw [← hsplit]
      _ = (y, daysBeforeMonth y m + (d - 1)) := this
  simp only [fromEpochDay, hloop,
    monthFromDoy_daysBeforeMonth y m d hm hm2 hd hd2]

lemma fieldsOfSecs_wallSecs (f : MarkerFields) (hy : 1970 ≤ f.year)
    (hm : 1 ≤ f.month) (hm2 : f.month ≤ 12) (hd : 1 ≤ f.day)
    (hd2 : f.day ≤ daysInMonth f.year f.month) (hh : f.hour ≤ 23)
    (hmi : f.minute ≤ 59) (hs : f.second ≤ 59) :
    fieldsOfSecs (wallSecs f) = f := by
  have hdiv : wallSecs f / 86400 = toEpochDay f.year f.month f.day := by
    unfold wallSecs
    omega
  have hmod : wallSecs f % 86400
      = 3600 * f.hour + 60 * f.minute + f.second := by
    unfold wallSecs
    omega
  simp only [fieldsOfSecs, hdiv, hmod,
    fromEpochDay_toEpochDay f.year f.month f.day hy hm hm2 hd hd2,
    show (3600 * f.hour + 60 * f.minute + f.second) / 3600 = f.hour from
      by omega,
    show (3600 * f.hour + 60 * f.minute + f.second) % 3600 / 60 = f.minute
      from by omega,
    show (3600 * f.hour + 60 * f.minute + f.second) % 60 = f.second from
      by omega]

lemma leapAdj_le (y : Nat) : leapAdj y ≤ 1 := by
  unfold leapAdj
  split <;> omega

lemma firstSundayDay_bounds (y m : Nat) :
    1 ≤ firstSundayDay y m ∧ firstSundayDay y m ≤ 7 := by
  unfold firstSundayDay dayOfWeek
  omega

lemma secondSundayMarch_bounds (y : Nat) :
    8 ≤ secondSundayMarch y ∧ secondSundayMarch y ≤ 14 := by
  have := firstSundayDay_bounds y 3
  unfold secondSundayMarch
  omega

lemma firstSundayNov_bounds (y : Nat) :
    1 ≤ firstSundayNov y ∧ firstSundayNov y ≤ 7 := by
  have := firstSundayDay_bounds y 11
  unfold firstSundayNov
  omega

lemma gapStartWall_eq (y : Nat) : gapStartWall y
    = 86400 * (daysToYear y + (59 + leapAdj y) + (secondSundayMarch y - 1))
      + 7200 := by
  simp only [gapStartWall, wallSecs, toEpochDay,
    show daysBeforeMonth y 3 = 59 + leapAdj y from rfl]

lemma dstStartWall_eq (y : Nat) : dstStartWall y = gapStartWall y + 3600 := by
  simp only [gapStartWall, dstStartWall, wallSecs]

lemma dstEndWall_eq (y : Nat) : dstEndWall y
    = 86400 * (daysToYear y + (304 + leapAdj y) + (firstSundayNov y - 1))
      + 7200 := by
  simp only [dstEndWall, wallSecs, toEpochDay,
    show daysBeforeMonth y 11 = 304 + leapAdj y from rfl]

lemma sumDaysFrom_succ_right (a k : Nat) :
    sumDaysFrom a (k + 1) = sumDaysFrom a k + daysInYear (a + k) := by
  induction k generalizing a with
  | zero => simp [sumDaysFrom]
  | succ k ih =>
    have h1 : sumDaysFrom a (k + 1 + 1)
        = daysInYear a + sumDaysFrom (a + 1) (k + 1) := rfl
    rw [h1, ih (a + 1), show a + 1 + k = a + (k + 1) from by omega]
    simp only [sumDaysFrom]
    omega

lemma daysToYear_succ (y : Nat) (hy : 1970 ≤ y) :
    daysToYear (y + 1) = daysToYear y + daysInYear y := by
  unfold daysToYear
  rw [show y + 1 - 1970 = (y - 1970) + 1 from by omega, sumDaysFrom_succ_right,
    show 1970 + (y - 1970) = y from by omega]

lemma fromEpochDay_year (y n : Nat) (hy : 1970 ≤ y)
    (h1 : daysToYear y ≤ n) (h2 : n < daysToYear y + daysInYear y) :
    (fromEpochDay n).1 = y := by
  have hk : 1970 + (y - 1970) = y := by omega
  have hfuel : y - 1970 < n + 1 := by
    have := sumDaysFrom_ge 1970 (y - 1970)
    unfold daysToYear at h1
    omega
  have hr : n - daysToYear y < daysInYear (1970 + (y - 1970)) := by
    rw [hk]
    omega
  have hsplit : n = sumDaysFrom 1970 (y - 1970) + (n - daysToYear y) := by
    unfold daysToYear at h1 ⊢
    omega
  have hloop : yearLoop (n + 1) 1970 n = (y, n - daysToYear y) := by
    calc yearLoop (n + 1) 1970 n
        = yearLoop (n + 1) 1970
            (sumDaysFrom 1970 (y - 1970) + (n - daysToYear y)) := by
          rw [← hsplit]
      _ = (1970 + (y - 1970), n - daysToYear y) :=
          yearLoop_exact (y - 1970) 1970 (n - daysToYear y) (n + 1) hr hfuel
      _ = (y, n - daysToYear y) := by rw [hk]
  simp only [fromEpochDay, hloop]

lemma wallSecs_year_bounds (f : MarkerFields) (hm : 1 ≤ f.month)
    (hm2 : f.month ≤ 12) (hd : 1 ≤ f.day)
    (hd2 : f.day ≤ daysInMonth f.year f.month) (hh : f.hour ≤ 23)
    (hmi : f.minute ≤ 59) (hs : f.second ≤ 59) :
    86400 * daysToYear f.year ≤ wallSecs f ∧
    wallSecs f < 86400 * (daysToYear f.year + daysInYear f.year) := by
  have hdoy := daysBeforeMonth_add_lt f.year f.month f.day hm hm2 hd hd2
  unfold wallSecs toEpochDay
  omega

/-- For a wall clock outside the skipped spring hour, the `fold=0`
wall-clock offset of `f` is exactly the instant offset of `encode f`:
the two DST determinations (by wall clock and by UTC instant) agree. -/
lemma utc_offset_agrees (f : MarkerFields) (hy : 2007 ≤ f.year)
    (hm : 1 ≤ f.month) (hm2 : f.month ≤ 12) (hd : 1 ≤ f.day)
    (hd2 : f.day ≤ daysInMonth f.year f.month) (hh : f.hour ≤ 23)
    (hmi : f.minute ≤ 59) (hs : f.second ≤ 59)
    (hgap : ¬(gapStartWall f.year ≤ wallSecs f
      ∧ wallSecs f < dstStartWall f.year)) :
    (if utcDst (wallSecs f + wallOffset f) then (18000 : Nat) else 21600)
      = wallOffset f := by
  obtain ⟨hw1, hw2⟩ := wallSecs_year_bounds f hm hm2 hd hd2 hh hmi hs
  obtain ⟨hSS1, hSS2⟩ := secondSundayMarch_bounds f.year
  obtain ⟨hFS1, hFS2⟩ := firstSundayNov_bounds f.year
  obtain ⟨hSS1', hSS2'⟩ := secondSundayMarch_bounds (f.year + 1)
  have hL := leapAdj_le f.year
  have hL' := leapAdj_le (f.year + 1)
  have hgapEq := gapStartWall_eq f.year
  have hstartEq := dstStartWall_eq f.year
  have hendEq := dstEndWall_eq f.year
  have hgapEq' := gapStartWall_eq (f.year + 1)
  have hdty := daysToYear_succ f.year (by omega)
  have hdy : daysInYear f.year = 365 + leapAdj f.year := rfl
  have hdy' : daysInYear (f.year + 1) = 365 + leapAdj (f.year + 1) := rfl
  by_cases hdst : chicagoWallDst f = true
  · have hws : dstStartWall f.year ≤ wallSecs f
        ∧ wallSecs f < dstEndWall f.year := by
      simpa [chicagoWallDst] using hdst
    have hoff : wallOffset f = 18000 := by simp [wallOffset, hdst]
    rw [hoff]
    have hyu : (fromEpochDay ((wallSecs f + 18000) / 86400)).1 = f.year := by
      apply fromEpochDay_year _ _ (by omega) <;> omega
    have hflag : utcDst (wallSecs f + 18000) = true := by
      simp only [utcDst, hyu, Bool.and_eq_true, decide_eq_true_eq,
        dstStartUtc, dstEndUtc]
      omega
    rw [hflag]
    rfl
  · have hws : ¬(dstStartWall f.year ≤ wallSecs f
        ∧ wallSecs f < dstEndWall f.year) := by
      simpa [chicagoWallDst] using hdst
    have hoff : wallOffset f = 21600 := by simp [wallOffset, hdst]
    rw [hoff]
    rcases (by omega : wallSecs f < dstStartWall f.year
        ∨ dstEndWall f.year ≤ wallSecs f) with hlt | hge
    · have hltg : wallSecs f < gapStartWall f.year := by
        rcases Nat.lt_or_ge (wallSecs f) (gapStartWall f.year) with h | h
        · exact h
        · exact absurd ⟨h, hlt⟩ hgap
      have hyu : (fromEpochDay ((wallSecs f + 21600) / 86400)).1 = f.year := by
        apply fromEpochDay_year _ _ (by omega) <;> omega
      have hflag : utcDst (wallSecs f + 21600) = false := by
        simp only [utcDst, hyu, Bool.and_eq_false_iff, decide_eq_false_iff_not,
          dstStartUtc, dstEndUtc]
        left
        omega
      rw [hflag]
      rfl
    · by_cases hyend : wallSecs f + 21600
          < 86400 * (daysToYear f.year + daysInYear f.year)
      · have hyu : (fromEpochDay ((wallSecs f + 21600) / 86400)).1
            = f.year := by
          apply fromEpochDay_year _ _ (by omega) <;> omega
        have hflag : utcDst (wallSecs f + 21600) = false := by
          simp only [utcDst, hyu, Bool.and_eq_false_iff,
            decide_eq_false_iff_not, dstStartUtc, dstEndUtc]
          right
          omega
        rw [hflag]
        rfl
      · have hyu : (fromEpochDay ((wallSecs f + 21600) / 86400)).1
            = f.year + 1 := by
          apply fromEpochDay_year _ _ (by omega)
          · rw [hdty]
            omega
          · rw [hdty, hdy']
            omega
        have hflag : utcDst (wallSecs f + 21600) = false := by
          simp only [utcDst, hyu, Bool.and_eq_false_iff,
            decide_eq_false_iff_not, dstStartUtc, dstEndUtc]
          left
          rw [hgapEq', hdty]
          omega
        rw [hflag]
        rfl

/-- C5: for every validly-formatted marker string — the canonical
zero-padded `"Last modified: MM/DD/YYYY HH:MM:SS"` rendering of a
wall-clock value with in-range fields — whose wall clock denotes a real
America/Chicago time (year between 2007, the first year of the current
US DST rules, and 9999, and not inside the skipped spring-forward hour:
the time-zone-normalization caveat of the claim), decoding the encoded
marker yields the original marker string byte for byte. -/
theorem marker_roundtrip (f : MarkerFields) (hy : 2007 ≤ f.year)
    (hy2 : f.year ≤ 9999) (hm : 1 ≤ f.month) (hm2 : f.month ≤ 12)
    (hd : 1 ≤ f.day) (hd2 : f.day ≤ daysInMonth f.year f.month)
    (hh : f.hour ≤ 23) (hmi : f.minute ≤ 59) (hs : f.second ≤ 59)
    (hgap : ¬(gapStartWall f.year ≤ wallSecs f
      ∧ wallSecs f < dstStartWall f.year)) :
    (modified_encode_model (formatMarker f)).map modified_decode_model
      = some (formatMarker f) := by
  rw [modified_encode_model,
    parseMarker_formatMarker f hy2 hm hm2 hd hd2 hh hmi hs]
  simp only [Option.map_some', Option.some.injEq]
  rw [modified_decode_model,
    utc_offset_agrees f hy hm hm2 hd hd2 hh hmi hs hgap,
    Nat.add_sub_cancel,
    fieldsOfSecs_wallSecs f (by omega) hm hm2 hd hd2 hh hmi hs]

/-- Witness for C5 at the concrete marker
`"Last modified: 06/15/2024 10:30:00"`. -/
theorem marker_roundtrip_witness :
    (modified_encode_model (formatMarker ⟨2024, 6, 15, 10, 30, 0⟩)).map
        modified_decode_model
      = some (formatMarker ⟨2024, 6, 15, 10, 30, 0⟩) :=
  marker_roundtrip ⟨2024, 6, 15, 10, 30, 0⟩ (by decide) (by decide)
    (by decide) (by decide) (by decide) (by decide) (by decide) (by decide)
    (by decide) (by decide)

end Wrds2pg
